import Mathlib

/-
  Shallow embedding of src/Protocol_SR.py (rdt_Sender and rdt_Receiver,
  a Selective Repeat sliding-window protocol).

  Python dicts are modelled as association lists (List (Nat × α)) with
  lookup, in-place update (insertA) and deletion (eraseA) mirroring dict
  semantics: update keeps the position of an existing key, insertion of a
  fresh key appends, deletion removes the (unique) entry.  Python dict keys
  are necessarily distinct, which on this representation is the hypothesis
  Nodup on the key list where it matters.

  The while loops at Protocol_SR.py lines 70-72 (sender window slide) and
  167-170 (receiver delivery) delete one present entry per iteration, so
  they run at most (length of the map) iterations; they are embedded as
  structurally recursive functions on that fuel, which is provably enough
  (the loop condition is a lookup that fails on the empty map).

  The simpy environment, channel and application are external collaborators:
  packets put on the channel and payloads delivered to the application are
  returned as explicit lists.  The write-only field timer_is_running is
  touched only asynchronously inside the timer coroutine and read nowhere,
  so it is not part of the synchronous state modelled here.
-/

/-- Modelled from the spec: the Packet value type (class Packet, imported at
Protocol_SR.py line 10 from a file that is not under src/).  Fields follow
section 6 of the spec: seq_num, payload, packet length, corrupted flag; a
packet constructed by the protocol code itself is not corrupted (corruption
is introduced only by the channel). -/
structure Packet where
  seq_num : Nat
  payload : String
  packet_length : Nat
  corrupted : Bool
deriving DecidableEq, Repr

/-- Association list lookup, mirroring Python `d[k]` / `k in d`. -/
def lookupA {α : Type} : List (Nat × α) → Nat → Option α
  | [], _ => none
  | (k, v) :: t, q => if k = q then some v else lookupA t q

/-- Association list update, mirroring Python `d[k] = v`: replace in place
if the key is present, append otherwise. -/
def insertA {α : Type} : List (Nat × α) → Nat → α → List (Nat × α)
  | [], q, v => [(q, v)]
  | (k, w) :: t, q, v => if k = q then (q, v) :: t else (k, w) :: insertA t q v

/-- Association list deletion, mirroring Python `del d[k]` for a present key. -/
def eraseA {α : Type} : List (Nat × α) → Nat → List (Nat × α)
  | [], _ => []
  | (k, w) :: t, q => if k = q then t else (k, w) :: eraseA t q

/-- The window expression `[(base + i) % K for i in range(0, size)]`
(Protocol_SR.py lines 44, 125 and 161). -/
def windowList (base size K : Nat) : List Nat :=
  (List.range size).map (fun i => (base + i) % K)

/-- State of rdt_Sender (Protocol_SR.py lines 14-37). -/
structure SenderState where
  data_packet_length : Nat
  timeout_value : Nat
  N : Nat
  K : Nat
  base : Nat
  nextseqnum : Nat
  sndpkt : List (Nat × Packet)
  acknowledged : List (Nat × Bool)
  total_packets_sent : Nat
  num_retransmissions : Nat
  /-- seq_num to triggered flag of the simpy process stored in self.timers;
  a freshly started timer is not yet triggered. -/
  timers : List (Nat × Bool)
deriving DecidableEq, Repr

/-- The state built by rdt_Sender.__init__ (Protocol_SR.py lines 14-37). -/
def initSender : SenderState :=
  { data_packet_length := 10
    timeout_value := 10
    N := 16
    K := 16
    base := 1
    nextseqnum := 1
    sndpkt := []
    acknowledged := []
    total_packets_sent := 0
    num_retransmissions := 0
    timers := [] }

/-- start_timer (Protocol_SR.py lines 92-98): create a timer only if none
exists for seq_num, otherwise a logged no-op. -/
def start_timer (s : SenderState) (seq_num : Nat) : SenderState :=
  if lookupA s.timers seq_num = none then
    { s with timers := insertA s.timers seq_num false }
  else
    s

/-- stop_timer (Protocol_SR.py lines 101-111): if a timer exists and has not
triggered, interrupt and delete it; if it already triggered, or if none
exists, a logged no-op. -/
def stop_timer (s : SenderState) (seq_num : Nat) : SenderState :=
  match lookupA s.timers seq_num with
  | none => s
  | some triggered =>
    if triggered then s
    else { s with timers := eraseA s.timers seq_num }

/-- rdt_send (Protocol_SR.py lines 39-58).  Returns the new state, the
packets put on the channel, and the Python return value. -/
def rdt_send (s : SenderState) (msg : String) : SenderState × List Packet × Bool :=
  if s.nextseqnum ∈ windowList s.base s.N s.K then
    ({ start_timer
         { s with
           sndpkt :=
             insertA s.sndpkt s.nextseqnum
               { seq_num := s.nextseqnum, payload := msg,
                 packet_length := s.data_packet_length, corrupted := false },
           total_packets_sent := s.total_packets_sent + 1 } s.nextseqnum
       with nextseqnum := (s.nextseqnum + 1) % s.K },
     [{ seq_num := s.nextseqnum, payload := msg,
        packet_length := s.data_packet_length, corrupted := false }], true)
  else
    (s, [], false)

/-- The while loop of Protocol_SR.py lines 70-72, on explicit fuel: while
base is marked acknowledged, delete its acknowledgment entry and advance
base modulo K.  Each iteration deletes one present entry. -/
def slideAux : Nat → SenderState → SenderState
  | 0, s => s
  | fuel + 1, s =>
    match lookupA s.acknowledged s.base with
    | some true =>
      slideAux fuel { s with acknowledged := eraseA s.acknowledged s.base,
                             base := (s.base + 1) % s.K }
    | _ => s

/-- The sender window slide, with fuel bounded by the size of the
acknowledgment map. -/
def slide (s : SenderState) : SenderState :=
  slideAux s.acknowledged.length s

/-- rdt_Sender.rdt_rcv (Protocol_SR.py lines 60-77): process an arriving
acknowledgment packet. -/
def rdt_Sender.rdt_rcv (s : SenderState) (p : Packet) : SenderState :=
  if p.corrupted then s
  else if (lookupA s.sndpkt p.seq_num).isSome then
    slide (stop_timer
      { s with acknowledged := insertA s.acknowledged p.seq_num true }
      p.seq_num)
  else
    s

/-- timeout_action (Protocol_SR.py lines 114-122).  Returns the new state
and the packets put on the channel; none models the Python KeyError raised
by `del self.timers[seq_num]` when no timer entry exists. -/
def timeout_action (s : SenderState) (seq_num : Nat) :
    Option (SenderState × List Packet) :=
  match lookupA s.sndpkt seq_num with
  | none => some (s, [])
  | some pkt =>
    match lookupA s.timers seq_num with
    | none => none
    | some _ =>
      some (start_timer
        { s with num_retransmissions := s.num_retransmissions + 1,
                 total_packets_sent := s.total_packets_sent + 1,
                 timers := eraseA s.timers seq_num } seq_num, [pkt])

/-- State of rdt_Receiver (Protocol_SR.py lines 131-149). -/
structure ReceiverState where
  ack_packet_length : Nat
  K : Nat
  expectedseqnum : Nat
  receiving_window : Nat
  base : Nat
  /-- the last acknowledgment packet constructed (self.sndpkt). -/
  sndpkt : Packet
  total_packets_sent : Nat
  num_retransmissions : Nat
  received_packets : List (Nat × Packet)
deriving DecidableEq, Repr

/-- The state built by rdt_Receiver.__init__ (Protocol_SR.py lines 131-149). -/
def initReceiver : ReceiverState :=
  { ack_packet_length := 10
    K := 16
    expectedseqnum := 1
    receiving_window := 16
    base := 1
    sndpkt := { seq_num := 0, payload := "ACK", packet_length := 10, corrupted := false }
    total_packets_sent := 0
    num_retransmissions := 0
    received_packets := [] }

/-- The while loop of Protocol_SR.py lines 167-170, on explicit fuel: while
base is present in the receive buffer, deliver its payload, delete it and
advance base modulo K.  Returns the new state and the delivered payloads in
order.  Each iteration deletes one present entry. -/
def deliverAux : Nat → ReceiverState → ReceiverState × List String
  | 0, r => (r, [])
  | fuel + 1, r =>
    match lookupA r.received_packets r.base with
    | none => (r, [])
    | some q =>
      let next := deliverAux fuel
        { r with received_packets := eraseA r.received_packets r.base,
                 base := (r.base + 1) % r.K }
      (next.1, q.payload :: next.2)

/-- The receiver delivery loop, with fuel bounded by the size of the
receive buffer. -/
def deliverLoop (r : ReceiverState) : ReceiverState × List String :=
  deliverAux r.received_packets.length r

/-- rdt_Receiver.rdt_rcv (Protocol_SR.py lines 151-177): process an arriving
data packet.  Returns the new state, the acknowledgment packets put on the
channel, and the payloads delivered to the application. -/
def rdt_Receiver.rdt_rcv (r : ReceiverState) (p : Packet) :
    ReceiverState × List Packet × List String :=
  if p.corrupted then (r, [], [])
  else if p.seq_num ∈ windowList r.base r.receiving_window r.K then
    ((deliverLoop
        { r with
          sndpkt := { seq_num := p.seq_num, payload := "ACK",
                      packet_length := r.ack_packet_length, corrupted := false },
          total_packets_sent := r.total_packets_sent + 1,
          received_packets := insertA r.received_packets p.seq_num p }).1,
     [{ seq_num := p.seq_num, payload := "ACK",
        packet_length := r.ack_packet_length, corrupted := false }],
     (deliverLoop
        { r with
          sndpkt := { seq_num := p.seq_num, payload := "ACK",
                      packet_length := r.ack_packet_length, corrupted := false },
          total_packets_sent := r.total_packets_sent + 1,
          received_packets := insertA r.received_packets p.seq_num p }).2)
  else
    ({ r with
       sndpkt := { seq_num := p.seq_num, payload := "ACK",
                   packet_length := r.ack_packet_length, corrupted := false },
       total_packets_sent := r.total_packets_sent + 1,
       num_retransmissions := r.num_retransmissions + 1 },
     [{ seq_num := p.seq_num, payload := "ACK",
        packet_length := r.ack_packet_length, corrupted := false }], [])

/-- Iterated advance of a window base: j steps of base = (base + 1) % K. -/
def iterBase (b K : Nat) : Nat → Nat
  | 0 => b
  | j + 1 => iterBase ((b + 1) % K) K j

/-- The packets put on the channel by a timeout, or none on a KeyError. -/
def sentOf (o : Option (SenderState × List Packet)) : List Packet :=
  (o.map Prod.snd).getD []

/-- Sender states reachable from the initial state by any sequence of
rdt_send, acknowledgment processing and timeout operations. -/
inductive ReachableSender : SenderState → Prop where
  | init : ReachableSender initSender
  | send (s : SenderState) (msg : String) :
      ReachableSender s → ReachableSender (rdt_send s msg).1
  | ack (s : SenderState) (p : Packet) :
      ReachableSender s → ReachableSender (rdt_Sender.rdt_rcv s p)
  | timeout (s : SenderState) (seq : Nat) (s' : SenderState) (out : List Packet) :
      ReachableSender s → timeout_action s seq = some (s', out) →
      ReachableSender s'

/-! ### Association list lemmas -/

theorem lookupA_insertA_self {α : Type} (l : List (Nat × α)) (k : Nat) (v : α) :
    lookupA (insertA l k v) k = some v := by
  induction l with
  | nil => simp [insertA, lookupA]
  | cons h t ih =>
    obtain ⟨k', w⟩ := h
    by_cases hk : k' = k
    · simp [insertA, hk, lookupA]
    · simp [insertA, hk, lookupA, ih]

theorem lookupA_insertA_ne {α : Type} (l : List (Nat × α)) (k q : Nat) (v : α)
    (h : q ≠ k) : lookupA (insertA l k v) q = lookupA l q := by
  have hk' : ¬(k = q) := fun hh => h hh.symm
  induction l with
  | nil => simp [insertA, lookupA, hk']
  | cons hd t ih =>
    obtain ⟨k', w⟩ := hd
    by_cases hk : k' = k
    · subst hk
      simp [insertA, lookupA, hk']
    · simp only [insertA, if_neg hk, lookupA]
      by_cases hq : k' = q
      · simp [hq]
      · simp [hq, ih]

theorem eraseA_sublist {α : Type} (l : List (Nat × α)) (k : Nat) :
    (eraseA l k).Sublist l := by
  induction l with
  | nil => simp [eraseA]
  | cons hd t ih =>
    obtain ⟨k', w⟩ := hd
    by_cases hk : k' = k
    · simp [eraseA, hk, List.sublist_cons_self]
    · simpa [eraseA, hk] using ih

theorem lookupA_none_of_sublist {α : Type} {l₁ l₂ : List (Nat × α)}
    (h : l₁.Sublist l₂) (k : Nat) (hn : lookupA l₂ k = none) :
    lookupA l₁ k = none := by
  induction h with
  | slnil => rfl
  | cons hd hs ih =>
    obtain ⟨k', w⟩ := hd
    by_cases hk : k' = k
    · simp [lookupA, hk] at hn
    · exact ih (by simpa [lookupA, hk] using hn)
  | cons₂ hd hs ih =>
    obtain ⟨k', w⟩ := hd
    by_cases hk : k' = k
    · simp [lookupA, hk] at hn
    · simp only [lookupA, if_neg hk] at hn ⊢
      exact ih hn

theorem lookupA_eq_none_of_not_mem {α : Type} (l : List (Nat × α)) (k : Nat)
    (h : k ∉ l.map Prod.fst) : lookupA l k = none := by
  induction l with
  | nil => rfl
  | cons hd t ih =>
    obtain ⟨k', w⟩ := hd
    simp only [List.map_cons, List.mem_cons] at h
    push_neg at h
    simp only [lookupA, if_neg (fun hh : k' = k => h.1 hh.symm)]
    exact ih h.2

theorem lookupA_eraseA_self {α : Type} (l : List (Nat × α)) (k : Nat)
    (hnd : (l.map Prod.fst).Nodup) : lookupA (eraseA l k) k = none := by
  induction l with
  | nil => rfl
  | cons hd t ih =>
    obtain ⟨k', w⟩ := hd
    simp only [List.map_cons, List.nodup_cons] at hnd
    by_cases hk : k' = k
    · subst hk
      simp only [eraseA, if_pos rfl]
      exact lookupA_eq_none_of_not_mem t k' hnd.1
    · simp only [eraseA, if_neg hk, lookupA, if_neg hk]
      exact ih hnd.2

theorem lookupA_eraseA_ne {α : Type} (l : List (Nat × α)) (k q : Nat)
    (h : q ≠ k) : lookupA (eraseA l k) q = lookupA l q := by
  have hk' : ¬(k = q) := fun hh => h hh.symm
  induction l with
  | nil => rfl
  | cons hd t ih =>
    obtain ⟨k', w⟩ := hd
    by_cases hk : k' = k
    · subst hk
      simp [eraseA, lookupA, hk']
    · simp only [eraseA, if_neg hk, lookupA]
      by_cases hq : k' = q
      · simp [hq]
      · simp [hq, ih]

theorem length_eraseA {α : Type} (l : List (Nat × α)) (k : Nat) (v : α)
    (h : lookupA l k = some v) : (eraseA l k).length + 1 = l.length := by
  induction l with
  | nil => simp [lookupA] at h
  | cons hd t ih =>
    obtain ⟨k', w⟩ := hd
    by_cases hk : k' = k
    · simp [eraseA, hk]
    · simp only [lookupA, if_neg hk] at h
      simp [eraseA, hk, ih h]

theorem mem_fst_insertA {α : Type} (l : List (Nat × α)) (k q : Nat) (v : α) :
    q ∈ (insertA l k v).map Prod.fst ↔ q = k ∨ q ∈ l.map Prod.fst := by
  induction l with
  | nil => simp [insertA]
  | cons hd t ih =>
    obtain ⟨k', w⟩ := hd
    by_cases hk : k' = k
    · subst hk
      simp [insertA]
    · simp only [insertA, if_neg hk, List.map_cons, List.mem_cons, ih]
      tauto

theorem nodup_insertA {α : Type} (l : List (Nat × α)) (k : Nat) (v : α)
    (hnd : (l.map Prod.fst).Nodup) : ((insertA l k v).map Prod.fst).Nodup := by
  induction l with
  | nil => simp [insertA]
  | cons hd t ih =>
    obtain ⟨k', w⟩ := hd
    simp only [List.map_cons, List.nodup_cons] at hnd
    by_cases hk : k' = k
    · subst hk
      have he : insertA ((k', w) :: t) k' v = (k', v) :: t := by simp [insertA]
      rw [he]
      simp only [List.map_cons, List.nodup_cons]
      exact hnd
    · simp only [insertA, if_neg hk, List.map_cons, List.nodup_cons]
      refine ⟨?_, ih hnd.2⟩
      intro hmem
      rcases (mem_fst_insertA t k k' v).mp hmem with h1 | h2
      · exact hk h1
      · exact hnd.1 h2

theorem nodup_eraseA {α : Type} (l : List (Nat × α)) (k : Nat)
    (hnd : (l.map Prod.fst).Nodup) : ((eraseA l k).map Prod.fst).Nodup :=
  hnd.sublist ((eraseA_sublist l k).map Prod.fst)

/-! ### Properties of the receiver delivery loop -/

theorem deliverAux_fields (fuel : Nat) : ∀ r : ReceiverState,
    (deliverAux fuel r).1.K = r.K ∧
    (deliverAux fuel r).1.receiving_window = r.receiving_window ∧
    (deliverAux fuel r).1.total_packets_sent = r.total_packets_sent ∧
    (deliverAux fuel r).1.num_retransmissions = r.num_retransmissions ∧
    (deliverAux fuel r).1.sndpkt = r.sndpkt ∧
    (deliverAux fuel r).1.ack_packet_length = r.ack_packet_length ∧
    (deliverAux fuel r).1.expectedseqnum = r.expectedseqnum := by
  induction fuel with
  | zero => intro r; exact ⟨rfl, rfl, rfl, rfl, rfl, rfl, rfl⟩
  | succ fuel ih =>
    intro r
    cases hl : lookupA r.received_packets r.base with
    | none => simp [deliverAux, hl]
    | some q =>
      have h := ih { r with received_packets := eraseA r.received_packets r.base,
                            base := (r.base + 1) % r.K }
      simpa [deliverAux, hl] using h

theorem deliverAux_buffer_sublist (fuel : Nat) : ∀ r : ReceiverState,
    ((deliverAux fuel r).1.received_packets).Sublist r.received_packets := by
  induction fuel with
  | zero => intro r; exact List.Sublist.refl _
  | succ fuel ih =>
    intro r
    cases hl : lookupA r.received_packets r.base with
    | none =>
      simp only [deliverAux, hl]
      exact List.Sublist.refl _
    | some q =>
      have h := ih { r with received_packets := eraseA r.received_packets r.base,
                            base := (r.base + 1) % r.K }
      simp only [deliverAux, hl]
      exact h.trans (eraseA_sublist _ _)

theorem deliverAux_spec (fuel : Nat) : ∀ r : ReceiverState,
    r.received_packets.length ≤ fuel →
    (r.received_packets.map Prod.fst).Nodup →
    (∀ j, j < (deliverAux fuel r).2.length →
      ∃ q : Packet, lookupA r.received_packets (iterBase r.base r.K j) = some q ∧
        (deliverAux fuel r).2[j]? = some q.payload) ∧
    (∀ j, j < (deliverAux fuel r).2.length →
      lookupA (deliverAux fuel r).1.received_packets (iterBase r.base r.K j) = none) ∧
    (deliverAux fuel r).1.base = iterBase r.base r.K (deliverAux fuel r).2.length ∧
    lookupA (deliverAux fuel r).1.received_packets (deliverAux fuel r).1.base = none := by
  induction fuel with
  | zero =>
    intro r hf hnd
    have hnil : r.received_packets = [] := List.length_eq_zero.mp (Nat.le_zero.mp hf)
    refine ⟨?_, ?_, rfl, ?_⟩
    · intro j hj; simp [deliverAux] at hj
    · intro j hj; simp [deliverAux] at hj
    · simp [deliverAux, hnil, lookupA]
  | succ fuel ih =>
    intro r hf hnd
    cases hl : lookupA r.received_packets r.base with
    | none =>
      refine ⟨?_, ?_, ?_, ?_⟩
      · intro j hj; simp [deliverAux, hl] at hj
      · intro j hj; simp [deliverAux, hl] at hj
      · simp [deliverAux, hl, iterBase]
      · simp only [deliverAux, hl]
    | some q =>
      have hf' : (eraseA r.received_packets r.base).length ≤ fuel := by
        have hlen := length_eraseA r.received_packets r.base q hl
        omega
      have hnd' := nodup_eraseA r.received_packets r.base hnd
      obtain ⟨IH1, IH2, IH3, IH4⟩ :=
        ih { r with received_packets := eraseA r.received_packets r.base,
                    base := (r.base + 1) % r.K } hf' hnd'
      have heq : deliverAux (fuel + 1) r =
          ((deliverAux fuel { r with received_packets := eraseA r.received_packets r.base,
                                     base := (r.base + 1) % r.K }).1,
            q.payload :: (deliverAux fuel { r with
              received_packets := eraseA r.received_packets r.base,
              base := (r.base + 1) % r.K }).2) := by
        simp only [deliverAux, hl]
      refine ⟨?_, ?_, ?_, ?_⟩
      · intro j hj
        rw [heq] at hj ⊢
        cases j with
        | zero => exact ⟨q, hl, by simp⟩
        | succ j =>
          have hj' : j < (deliverAux fuel { r with
              received_packets := eraseA r.received_packets r.base,
              base := (r.base + 1) % r.K }).2.length := by
            simpa using hj
          obtain ⟨q', hq', he⟩ := IH1 j hj'
          have hq2 : lookupA (eraseA r.received_packets r.base)
              (iterBase ((r.base + 1) % r.K) r.K j) = some q' := hq'
          refine ⟨q', ?_, by simpa using he⟩
          show lookupA r.received_packets (iterBase ((r.base + 1) % r.K) r.K j) = some q'
          by_cases hb : iterBase ((r.base + 1) % r.K) r.K j = r.base
          · rw [hb] at hq2
            rw [lookupA_eraseA_self _ _ hnd] at hq2
            exact absurd hq2 (by simp)
          · rw [← lookupA_eraseA_ne r.received_packets r.base _ hb]
            exact hq2
      · intro j hj
        rw [heq] at hj ⊢
        cases j with
        | zero =>
          have hsub := deliverAux_buffer_sublist fuel { r with
            received_packets := eraseA r.received_packets r.base,
            base := (r.base + 1) % r.K }
          have hnone : lookupA (eraseA r.received_packets r.base) r.base = none :=
            lookupA_eraseA_self _ _ hnd
          exact lookupA_none_of_sublist hsub _ hnone
        | succ j =>
          have hj' : j < (deliverAux fuel { r with
              received_packets := eraseA r.received_packets r.base,
              base := (r.base + 1) % r.K }).2.length := by
            simpa using hj
          exact IH2 j hj'
      · rw [heq]
        simpa using IH3
      · rw [heq]
        exact IH4

/-! ### Window arithmetic and sender invariants -/

theorem mem_windowList_16 (b m : Nat) (hm : m < 16) : m ∈ windowList b 16 16 := by
  unfold windowList
  refine List.mem_map.mpr
    ⟨(m + 16 - b % 16) % 16, List.mem_range.mpr (Nat.mod_lt _ (by norm_num)), ?_⟩
  omega


@[simp] theorem start_timer_N (s : SenderState) (q : Nat) :
    (start_timer s q).N = s.N := by
  unfold start_timer; split <;> rfl

@[simp] theorem start_timer_K (s : SenderState) (q : Nat) :
    (start_timer s q).K = s.K := by
  unfold start_timer; split <;> rfl

@[simp] theorem start_timer_base (s : SenderState) (q : Nat) :
    (start_timer s q).base = s.base := by
  unfold start_timer; split <;> rfl

@[simp] theorem start_timer_nextseqnum (s : SenderState) (q : Nat) :
    (start_timer s q).nextseqnum = s.nextseqnum := by
  unfold start_timer; split <;> rfl

@[simp] theorem start_timer_sndpkt (s : SenderState) (q : Nat) :
    (start_timer s q).sndpkt = s.sndpkt := by
  unfold start_timer; split <;> rfl

@[simp] theorem start_timer_acknowledged (s : SenderState) (q : Nat) :
    (start_timer s q).acknowledged = s.acknowledged := by
  unfold start_timer; split <;> rfl

@[simp] theorem start_timer_total (s : SenderState) (q : Nat) :
    (start_timer s q).total_packets_sent = s.total_packets_sent := by
  unfold start_timer; split <;> rfl

@[simp] theorem start_timer_retrans (s : SenderState) (q : Nat) :
    (start_timer s q).num_retransmissions = s.num_retransmissions := by
  unfold start_timer; split <;> rfl

@[simp] theorem start_timer_dpl (s : SenderState) (q : Nat) :
    (start_timer s q).data_packet_length = s.data_packet_length := by
  unfold start_timer; split <;> rfl

@[simp] theorem start_timer_tv (s : SenderState) (q : Nat) :
    (start_timer s q).timeout_value = s.timeout_value := by
  unfold start_timer; split <;> rfl

@[simp] theorem stop_timer_N (s : SenderState) (q : Nat) :
    (stop_timer s q).N = s.N := by
  unfold stop_timer; split
  · rfl
  · split <;> rfl

@[simp] theorem stop_timer_K (s : SenderState) (q : Nat) :
    (stop_timer s q).K = s.K := by
  unfold stop_timer; split
  · rfl
  · split <;> rfl

@[simp] theorem stop_timer_base (s : SenderState) (q : Nat) :
    (stop_timer s q).base = s.base := by
  unfold stop_timer; split
  · rfl
  · split <;> rfl

@[simp] theorem stop_timer_nextseqnum (s : SenderState) (q : Nat) :
    (stop_timer s q).nextseqnum = s.nextseqnum := by
  unfold stop_timer; split
  · rfl
  · split <;> rfl

@[simp] theorem stop_timer_sndpkt (s : SenderState) (q : Nat) :
    (stop_timer s q).sndpkt = s.sndpkt := by
  unfold stop_timer; split
  · rfl
  · split <;> rfl

@[simp] theorem stop_timer_acknowledged (s : SenderState) (q : Nat) :
    (stop_timer s q).acknowledged = s.acknowledged := by
  unfold stop_timer; split
  · rfl
  · split <;> rfl

@[simp] theorem stop_timer_total (s : SenderState) (q : Nat) :
    (stop_timer s q).total_packets_sent = s.total_packets_sent := by
  unfold stop_timer; split
  · rfl
  · split <;> rfl

@[simp] theorem stop_timer_retrans (s : SenderState) (q : Nat) :
    (stop_timer s q).num_retransmissions = s.num_retransmissions := by
  unfold stop_timer; split
  · rfl
  · split <;> rfl

theorem start_timer_isSome (s : SenderState) (q : Nat) :
    (lookupA (start_timer s q).timers q).isSome = true := by
  unfold start_timer
  by_cases h : lookupA s.timers q = none
  · rw [if_pos h]
    simp [lookupA_insertA_self]
  · rw [if_neg h]
    cases hl : lookupA s.timers q with
    | none => exact absurd hl h
    | some b => simp [hl]

theorem slideAux_inv (fuel : Nat) : ∀ s : SenderState, s.K = 16 → s.base < 16 →
    (slideAux fuel s).N = s.N ∧ (slideAux fuel s).K = 16 ∧
    (slideAux fuel s).base < 16 ∧
    (slideAux fuel s).nextseqnum = s.nextseqnum := by
  induction fuel with
  | zero => intro s hK hb; exact ⟨rfl, hK, hb, rfl⟩
  | succ fuel ih =>
    intro s hK hb
    cases hl : lookupA s.acknowledged s.base with
    | none =>
      have hst : slideAux (fuel + 1) s = s := by
        unfold slideAux; rw [hl]
      rw [hst]
      exact ⟨rfl, hK, hb, rfl⟩
    | some b =>
      cases b with
      | false =>
        have hst : slideAux (fuel + 1) s = s := by
          unfold slideAux; rw [hl]
        rw [hst]
        exact ⟨rfl, hK, hb, rfl⟩
      | true =>
        have hst : slideAux (fuel + 1) s =
            slideAux fuel { s with acknowledged := eraseA s.acknowledged s.base,
                                   base := (s.base + 1) % s.K } := by
          conv_lhs => unfold slideAux
          rw [hl]
        rw [hst]
        exact ih _ (by simpa using hK) (by simp [hK]; omega)

/-- The invariant of reachable sender states used by the window claims:
the configuration is the constructor default N = K = 16 and both window
pointers stay inside the sequence number space. -/
theorem reachable_sender_inv (s : SenderState) (h : ReachableSender s) :
    s.N = 16 ∧ s.K = 16 ∧ s.base < 16 ∧ s.nextseqnum < 16 := by
  induction h with
  | init => exact ⟨rfl, rfl, by decide, by decide⟩
  | send s msg hs ih =>
    obtain ⟨hN, hK, hb, hn⟩ := ih
    unfold rdt_send
    split
    · refine ⟨by simp [hN], by simp [hK], by simp [hb], ?_⟩
      show (s.nextseqnum + 1) % s.K < 16
      rw [hK]
      exact Nat.mod_lt _ (by norm_num)
    · exact ⟨hN, hK, hb, hn⟩
  | ack s p hs ih =>
    obtain ⟨hN, hK, hb, hn⟩ := ih
    unfold rdt_Sender.rdt_rcv
    split
    · exact ⟨hN, hK, hb, hn⟩
    · split
      · unfold slide
        obtain ⟨w1, w2, w3, w4⟩ := slideAux_inv _
          (stop_timer { s with acknowledged := insertA s.acknowledged p.seq_num true }
            p.seq_num)
          (by simp [hK]) (by simp [hb])
        refine ⟨?_, w2, w3, ?_⟩
        · rw [w1]; simp [hN]
        · rw [w4]; simp [hn]
      · exact ⟨hN, hK, hb, hn⟩
  | timeout s seq s' out hs heq ih =>
    obtain ⟨hN, hK, hb, hn⟩ := ih
    unfold timeout_action at heq
    split at heq
    · cases heq
      exact ⟨hN, hK, hb, hn⟩
    · split at heq
      · cases heq
      · cases heq
        exact ⟨by simp [hN], by simp [hK], by simp [hb], by simp [hn]⟩

/-! ### Claim C1 -/

/-- C1: rdt_send returns True exactly when nextseqnum lies in the window
[(base + i) mod K for i in 0..N-1]; on acceptance it buffers a new packet
for nextseqnum, transmits it on the channel, increments the total-sent
counter, starts the timer for nextseqnum and advances
nextseqnum = (nextseqnum + 1) mod K; on rejection it returns False and
changes no sender state. -/
theorem rdt_send_accept_reject (s : SenderState) (msg : String) :
    ((rdt_send s msg).2.2 = true ↔ s.nextseqnum ∈ windowList s.base s.N s.K) ∧
    (s.nextseqnum ∈ windowList s.base s.N s.K →
      lookupA (rdt_send s msg).1.sndpkt s.nextseqnum =
        some { seq_num := s.nextseqnum, payload := msg,
               packet_length := s.data_packet_length, corrupted := false } ∧
      (rdt_send s msg).2.1 =
        [{ seq_num := s.nextseqnum, payload := msg,
           packet_length := s.data_packet_length, corrupted := false }] ∧
      (rdt_send s msg).1.total_packets_sent = s.total_packets_sent + 1 ∧
      (lookupA (rdt_send s msg).1.timers s.nextseqnum).isSome = true ∧
      (lookupA s.timers s.nextseqnum = none →
        (rdt_send s msg).1.timers = insertA s.timers s.nextseqnum false) ∧
      (rdt_send s msg).1.nextseqnum = (s.nextseqnum + 1) % s.K) ∧
    (s.nextseqnum ∉ windowList s.base s.N s.K →
      (rdt_send s msg).2.2 = false ∧ (rdt_send s msg).1 = s ∧
      (rdt_send s msg).2.1 = []) := by
  by_cases hw : s.nextseqnum ∈ windowList s.base s.N s.K
  · have he : rdt_send s msg =
        ({ start_timer
             { s with
               sndpkt :=
                 insertA s.sndpkt s.nextseqnum
                   { seq_num := s.nextseqnum, payload := msg,
                     packet_length := s.data_packet_length, corrupted := false },
               total_packets_sent := s.total_packets_sent + 1 } s.nextseqnum
           with nextseqnum := (s.nextseqnum + 1) % s.K },
         [{ seq_num := s.nextseqnum, payload := msg,
            packet_length := s.data_packet_length, corrupted := false }], true) := by
      unfold rdt_send
      rw [if_pos hw]
    refine ⟨?_, ?_, fun hn => absurd hw hn⟩
    · rw [he]
      simpa using hw
    · intro _
      rw [he]
      refine ⟨?_, rfl, ?_, ?_, ?_, rfl⟩
      · show lookupA (start_timer _ s.nextseqnum).sndpkt s.nextseqnum = _
        rw [start_timer_sndpkt]
        exact lookupA_insertA_self _ _ _
      · show (start_timer _ s.nextseqnum).total_packets_sent = _
        rw [start_timer_total]
      · exact start_timer_isSome _ _
      · intro ht
        show (start_timer _ s.nextseqnum).timers = _
        unfold start_timer
        simp only [ht, if_pos]
  · have he : rdt_send s msg = (s, [], false) := by
      unfold rdt_send
      rw [if_neg hw]
    refine ⟨?_, fun h => absurd h hw, fun _ => ⟨by rw [he], by rw [he], by rw [he]⟩⟩
    rw [he]
    simpa using hw

/-- Witness for C1 at the initial sender state. -/
theorem rdt_send_accept_reject_witness :
    (rdt_send initSender "hello").2.2 = true ∧
    (rdt_send initSender "hello").1.total_packets_sent = 1 := by
  have h := rdt_send_accept_reject initSender "hello"
  exact ⟨h.1.mpr (by decide), (h.2.1 (by decide)).2.2.1⟩

/-! ### Claim C3 -/

/-- The acknowledgment packet for sequence number 1. -/
def ackPkt1 : Packet :=
  { seq_num := 1, payload := "ACK", packet_length := 10, corrupted := false }

/-- The sender after sending one packet (seq 1) and processing its
acknowledgment: base has advanced to 2, past sequence number 1. -/
def senderPastOne : SenderState :=
  rdt_Sender.rdt_rcv (rdt_send initSender "a").1 ackPkt1

/-- C3 counterexample: in the reachable state senderPastOne the base (= 2)
has advanced past sequence number 1, yet a duplicate acknowledgment for 1
is re-processed and mutates the sender state (it recreates an entry in the
acknowledged map), because sndpkt entries are never removed.  This refutes
the parenthetical of C3: a seq_num the base has advanced past is still a
buffered key of sndpkt. -/
theorem stale_ack_mutates_counterexample :
    ReachableSender senderPastOne ∧
    senderPastOne.base = 2 ∧
    lookupA senderPastOne.acknowledged 1 = none ∧
    lookupA (rdt_Sender.rdt_rcv senderPastOne ackPkt1).acknowledged 1 = some true ∧
    rdt_Sender.rdt_rcv senderPastOne ackPkt1 ≠ senderPastOne := by
  refine ⟨?_, by decide, by decide, by decide, by decide⟩
  exact ReachableSender.ack _ ackPkt1
    (ReachableSender.send _ "a" ReachableSender.init)

/-- C3 amended: a non-corrupted acknowledgment whose seq_num is not a key
of the sndpkt buffer mutates no sender state.  (Sequence numbers the base
has advanced past remain keys of sndpkt, so their duplicate
acknowledgments are re-processed, not ignored.) -/
theorem unbuffered_ack_ignored (s : SenderState) (p : Packet)
    (hc : p.corrupted = false) (hn : lookupA s.sndpkt p.seq_num = none) :
    rdt_Sender.rdt_rcv s p = s := by
  unfold rdt_Sender.rdt_rcv
  simp [hc, hn]

/-- Witness for the amended C3: an acknowledgment for a never-sent
sequence number leaves the initial sender unchanged. -/
theorem unbuffered_ack_ignored_witness :
    (({ seq_num := 5, payload := "ACK", packet_length := 10,
        corrupted := false } : Packet).corrupted = false) ∧
    lookupA initSender.sndpkt 5 = none ∧
    rdt_Sender.rdt_rcv initSender
      { seq_num := 5, payload := "ACK", packet_length := 10,
        corrupted := false } = initSender := by
  exact ⟨rfl, rfl, unbuffered_ack_ignored initSender _ rfl rfl⟩

/-! ### Claim C6 -/

/-- C6: a corrupted acknowledgment changes no sender state, and a corrupted
data packet produces no acknowledgment, no delivery and no receiver state
change. -/
theorem corrupted_input_dropped (s : SenderState) (r : ReceiverState)
    (p : Packet) (hc : p.corrupted = true) :
    rdt_Sender.rdt_rcv s p = s ∧ rdt_Receiver.rdt_rcv r p = (r, [], []) := by
  constructor
  · unfold rdt_Sender.rdt_rcv
    simp [hc]
  · unfold rdt_Receiver.rdt_rcv
    simp [hc]

/-- Witness for C6 on a concrete corrupted packet and the initial states. -/
theorem corrupted_input_dropped_witness :
    (({ seq_num := 3, payload := "x", packet_length := 10,
        corrupted := true } : Packet).corrupted = true) ∧
    rdt_Sender.rdt_rcv initSender
      { seq_num := 3, payload := "x", packet_length := 10,
        corrupted := true } = initSender ∧
    rdt_Receiver.rdt_rcv initReceiver
      { seq_num := 3, payload := "x", packet_length := 10,
        corrupted := true } = (initReceiver, [], []) := by
  have h := corrupted_input_dropped initSender initReceiver
    { seq_num := 3, payload := "x", packet_length := 10, corrupted := true } rfl
  exact ⟨rfl, h.1, h.2⟩

/-! ### Claim C9 -/

/-- C9: start_timer when a timer entry for seq already exists, and
stop_timer when no entry for seq exists, both leave the sender state
(in particular the timer table) unchanged; both are total functions, so
no failure is raised. -/
theorem timer_anomaly_noop (s : SenderState) (seq : Nat) :
    ((lookupA s.timers seq).isSome = true → start_timer s seq = s) ∧
    (lookupA s.timers seq = none → stop_timer s seq = s) := by
  constructor
  · intro h
    unfold start_timer
    rw [if_neg]
    intro hn
    rw [hn] at h
    simp at h
  · intro h
    unfold stop_timer
    rw [h]

/-- The sender after one accepted rdt_send: a timer entry exists for seq 1
and none exists for seq 2. -/
def senderAfterOneSend : SenderState := (rdt_send initSender "a").1

/-- Witness for C9 at a state with a running timer for sequence number 1. -/
theorem timer_anomaly_noop_witness :
    (lookupA senderAfterOneSend.timers 1).isSome = true ∧
    lookupA senderAfterOneSend.timers 2 = none ∧
    start_timer senderAfterOneSend 1 = senderAfterOneSend ∧
    stop_timer senderAfterOneSend 2 = senderAfterOneSend := by
  exact ⟨by decide, by decide,
    (timer_anomaly_noop senderAfterOneSend 1).1 (by decide),
    (timer_anomaly_noop senderAfterOneSend 2).2 (by decide)⟩

/-! ### Claim C4 -/

/-- C4: in every sender state reachable from the initial state by rdt_send,
acknowledgment processing and timeouts, (nextseqnum - base) mod K is at
most N, and nextseqnum lies inside the currently valid window (so every
assignment to nextseqnum yields a value inside the window of the state it
produces). -/
theorem sender_window_invariant (s : SenderState) (h : ReachableSender s) :
    ((s.nextseqnum : Int) - (s.base : Int)) % (s.K : Int) ≤ (s.N : Int) ∧
    s.nextseqnum ∈ windowList s.base s.N s.K := by
  obtain ⟨hN, hK, hb, hn⟩ := reachable_sender_inv s h
  constructor
  · rw [hN, hK]
    omega
  · rw [hN, hK]
    exact mem_windowList_16 s.base s.nextseqnum hn

/-- Witness for C4 at the initial sender state. -/
theorem sender_window_invariant_witness :
    ((initSender.nextseqnum : Int) - (initSender.base : Int)) %
        (initSender.K : Int) ≤ (initSender.N : Int) ∧
    initSender.nextseqnum ∈
      windowList initSender.base initSender.N initSender.K :=
  sender_window_invariant initSender ReachableSender.init

/-! ### Claim C10 -/

/-- C10: under the default configuration N = K = 16 the window contains
every sequence number, so rdt_send accepts in every reachable state (the
rejection branch is unreachable), and the default configuration violates
the K at least 2N constraint. -/
theorem default_window_always_accepts (s : SenderState)
    (h : ReachableSender s) :
    (∀ m, m < 16 → m ∈ windowList s.base s.N s.K) ∧
    (∀ msg, (rdt_send s msg).2.2 = true) ∧
    ¬(2 * initSender.N ≤ initSender.K) := by
  obtain ⟨hN, hK, hb, hn⟩ := reachable_sender_inv s h
  refine ⟨?_, ?_, by decide⟩
  · intro m hm
    rw [hN, hK]
    exact mem_windowList_16 s.base m hm
  · intro msg
    have hmem : s.nextseqnum ∈ windowList s.base s.N s.K := by
      rw [hN, hK]
      exact mem_windowList_16 s.base s.nextseqnum hn
    unfold rdt_send
    rw [if_pos hmem]

/-- Witness for C10 at the initial sender state. -/
theorem default_window_always_accepts_witness :
    (rdt_send initSender "w").2.2 = true ∧
    ¬(2 * initSender.N ≤ initSender.K) :=
  ⟨(default_window_always_accepts initSender ReachableSender.init).2.1 "w",
   (default_window_always_accepts initSender ReachableSender.init).2.2⟩

/-! ### Claim C8 -/

/-- C8: for every non-corrupted arriving packet the receiver sends exactly
one acknowledgment carrying the packets own seq_num and increments its
total-sent counter, whether or not seq_num is inside the receive window;
outside the window nothing is buffered or delivered and only the
duplicate counter (num_retransmissions) is additionally incremented. -/
theorem receiver_always_acks (r : ReceiverState) (p : Packet)
    (hc : p.corrupted = false) :
    (rdt_Receiver.rdt_rcv r p).2.1 =
      [{ seq_num := p.seq_num, payload := "ACK",
         packet_length := r.ack_packet_length, corrupted := false }] ∧
    (rdt_Receiver.rdt_rcv r p).1.total_packets_sent =
      r.total_packets_sent + 1 ∧
    (p.seq_num ∉ windowList r.base r.receiving_window r.K →
      (rdt_Receiver.rdt_rcv r p).1.received_packets = r.received_packets ∧
      (rdt_Receiver.rdt_rcv r p).2.2 = [] ∧
      (rdt_Receiver.rdt_rcv r p).1.num_retransmissions =
        r.num_retransmissions + 1 ∧
      (rdt_Receiver.rdt_rcv r p).1.base = r.base) ∧
    (p.seq_num ∈ windowList r.base r.receiving_window r.K →
      (rdt_Receiver.rdt_rcv r p).1.num_retransmissions =
        r.num_retransmissions) := by
  have hcf : ¬(p.corrupted = true) := by simp [hc]
  unfold rdt_Receiver.rdt_rcv
  rw [if_neg hcf]
  by_cases hw : p.seq_num ∈ windowList r.base r.receiving_window r.K
  · rw [if_pos hw]
    refine ⟨rfl, ?_, fun hn => absurd hw hn, fun _ => ?_⟩
    · exact (deliverAux_fields _ _).2.2.1
    · exact (deliverAux_fields _ _).2.2.2.1
  · rw [if_neg hw]
    exact ⟨rfl, rfl, fun _ => ⟨rfl, rfl, rfl, rfl⟩, fun h => absurd h hw⟩

/-- Witness for C8 on an out-of-window packet (seq 20) at the initial
receiver. -/
theorem receiver_always_acks_witness :
    (({ seq_num := 20, payload := "w", packet_length := 10,
        corrupted := false } : Packet).corrupted = false) ∧
    (rdt_Receiver.rdt_rcv initReceiver
        { seq_num := 20, payload := "w", packet_length := 10,
          corrupted := false }).2.1 =
      [{ seq_num := 20, payload := "ACK", packet_length := 10,
         corrupted := false }] ∧
    (rdt_Receiver.rdt_rcv initReceiver
        { seq_num := 20, payload := "w", packet_length := 10,
          corrupted := false }).1.total_packets_sent = 1 := by
  have h := receiver_always_acks initReceiver
    { seq_num := 20, payload := "w", packet_length := 10,
      corrupted := false } rfl
  exact ⟨rfl, h.1, h.2.1⟩

/-! ### Claim C2 -/

/-- A first data packet, delivered immediately by the initial receiver. -/
def pkt1C : Packet :=
  { seq_num := 1, payload := "m1", packet_length := 10, corrupted := false }

/-- The out-of-order data packet of the reordering scenario. -/
def pkt3C : Packet :=
  { seq_num := 3, payload := "m3", packet_length := 10, corrupted := false }

/-- The gap-filling data packet of the reordering scenario. -/
def pkt2C : Packet :=
  { seq_num := 2, payload := "m2", packet_length := 10, corrupted := false }

/-- The receiver after packet 1 was received and delivered: base is 2. -/
def receiverScenC : ReceiverState :=
  (rdt_Receiver.rdt_rcv initReceiver pkt1C).1

/-- The receiver after additionally buffering out-of-order packet 3. -/
def receiverScenC3 : ReceiverState :=
  (rdt_Receiver.rdt_rcv receiverScenC pkt3C).1

/-- C2: a non-corrupted in-window packet is stored (or overwritten) in the
receive buffer at its seq_num; then, while base is present in the buffer,
its payload is delivered, the entry removed and base advanced modulo K, in
increasing base order; the loop stops exactly when base is absent.  The
final conjunct is the reordering scenario: packet 3 arriving before
packet 2 (base = 2) is buffered without delivery, and when packet 2
arrives both payloads are delivered in order in the same step. -/
theorem receiver_in_window_delivery (r : ReceiverState) (p : Packet)
    (hc : p.corrupted = false)
    (hw : p.seq_num ∈ windowList r.base r.receiving_window r.K)
    (hnd : (r.received_packets.map Prod.fst).Nodup) :
    lookupA (insertA r.received_packets p.seq_num p) p.seq_num = some p ∧
    (∀ j, j < (rdt_Receiver.rdt_rcv r p).2.2.length →
      ∃ q : Packet,
        lookupA (insertA r.received_packets p.seq_num p)
          (iterBase r.base r.K j) = some q ∧
        (rdt_Receiver.rdt_rcv r p).2.2[j]? = some q.payload) ∧
    (∀ j, j < (rdt_Receiver.rdt_rcv r p).2.2.length →
      lookupA (rdt_Receiver.rdt_rcv r p).1.received_packets
        (iterBase r.base r.K j) = none) ∧
    (rdt_Receiver.rdt_rcv r p).1.base =
      iterBase r.base r.K (rdt_Receiver.rdt_rcv r p).2.2.length ∧
    lookupA (rdt_Receiver.rdt_rcv r p).1.received_packets
      (rdt_Receiver.rdt_rcv r p).1.base = none ∧
    ((rdt_Receiver.rdt_rcv receiverScenC pkt3C).2.2 = [] ∧
     (rdt_Receiver.rdt_rcv receiverScenC3 pkt2C).2.2 = ["m2", "m3"]) := by
  have hcf : ¬(p.corrupted = true) := by simp [hc]
  have hnd1 : ((insertA r.received_packets p.seq_num p).map Prod.fst).Nodup :=
    nodup_insertA r.received_packets p.seq_num p hnd
  obtain ⟨S1, S2, S3, S4⟩ := deliverAux_spec
    (insertA r.received_packets p.seq_num p).length
    { r with
      sndpkt := { seq_num := p.seq_num, payload := "ACK",
                  packet_length := r.ack_packet_length, corrupted := false },
      total_packets_sent := r.total_packets_sent + 1,
      received_packets := insertA r.received_packets p.seq_num p }
    (Nat.le_refl _) hnd1
  have he : rdt_Receiver.rdt_rcv r p =
      ((deliverAux (insertA r.received_packets p.seq_num p).length
          { r with
            sndpkt := { seq_num := p.seq_num, payload := "ACK",
                        packet_length := r.ack_packet_length,
                        corrupted := false },
            total_packets_sent := r.total_packets_sent + 1,
            received_packets := insertA r.received_packets p.seq_num p }).1,
       [{ seq_num := p.seq_num, payload := "ACK",
          packet_length := r.ack_packet_length, corrupted := false }],
       (deliverAux (insertA r.received_packets p.seq_num p).length
          { r with
            sndpkt := { seq_num := p.seq_num, payload := "ACK",
                        packet_length := r.ack_packet_length,
                        corrupted := false },
            total_packets_sent := r.total_packets_sent + 1,
            received_packets := insertA r.received_packets p.seq_num p }).2) := by
    unfold rdt_Receiver.rdt_rcv deliverLoop
    rw [if_neg hcf, if_pos hw]
  refine ⟨lookupA_insertA_self _ _ _, ?_, ?_, ?_, ?_, by decide, by decide⟩
  · rw [he]
    exact S1
  · rw [he]
    exact S2
  · rw [he]
    exact S3
  · rw [he]
    exact S4

/-- Witness for C2 at the reordering scenario state: receiving packet 2
with packet 3 already buffered advances base by two steps. -/
theorem receiver_in_window_delivery_witness :
    pkt2C.corrupted = false ∧
    pkt2C.seq_num ∈ windowList receiverScenC3.base
      receiverScenC3.receiving_window receiverScenC3.K ∧
    (receiverScenC3.received_packets.map Prod.fst).Nodup ∧
    (rdt_Receiver.rdt_rcv receiverScenC3 pkt2C).1.base =
      iterBase receiverScenC3.base receiverScenC3.K
        (rdt_Receiver.rdt_rcv receiverScenC3 pkt2C).2.2.length := by
  refine ⟨by decide, by decide, by decide, ?_⟩
  exact (receiver_in_window_delivery receiverScenC3 pkt2C (by decide)
    (by decide) (by decide)).2.2.2.1

/-! ### Claim C5 -/

/-- C5: evaluation of the code at the failing input.  After sending packet
1 and processing its acknowledgment the base has advanced to 2, yet the
sndpkt entry for sequence number 1 is still present (the slide loop at
Protocol_SR.py lines 70-72 deletes only the acknowledged entry, never the
sndpkt entry), and re-processing a duplicate acknowledgment for 1 then
creates an acknowledged entry for a sequence number behind the base.  This
contradicts the claimed removal of the packet record and the claimed
absence of entries behind the base, and it makes the old-window branch at
Protocol_SR.py line 74 unreachable for any previously sent packet. -/
theorem sndpkt_never_pruned :
    ReachableSender senderPastOne ∧
    senderPastOne.base = 2 ∧
    (lookupA senderPastOne.sndpkt 1).isSome = true ∧
    lookupA
      (rdt_Sender.rdt_rcv senderPastOne ackPkt1).acknowledged 1 = some true := by
  refine ⟨?_, by decide, by decide, by decide⟩
  exact ReachableSender.ack _ ackPkt1
    (ReachableSender.send _ "a" ReachableSender.init)

/-! ### Claim C7 -/

/-- Repeated rdt_send steps, keeping only the state. -/
def sendMany (s : SenderState) (msgs : List String) : SenderState :=
  msgs.foldl (fun t m => (rdt_send t m).1) s

theorem reachable_sendMany (msgs : List String) : ∀ s : SenderState,
    ReachableSender s → ReachableSender (sendMany s msgs) := by
  induction msgs with
  | nil => intro s h; exact h
  | cons m ms ih =>
    intro s h
    exact ih _ (ReachableSender.send s m h)

/-- A reachable sender state in which sequence number 1 is marked
acknowledged while a fresh packet with payload z occupies sndpkt entry 1
and a timer for 1 is running: send seq 1, ack it (base moves to 2), send
seqs 2..15 and 0, process a duplicate ack for 1 (re-accepted because
sndpkt is never pruned), then send a new packet that reuses seq 1. -/
def ackedThenReusedSender : SenderState :=
  (rdt_send
    (rdt_Sender.rdt_rcv
      (sendMany senderPastOne (List.replicate 15 "x"))
      ackPkt1)
    "z").1

/-- C7 counterexample: in the reachable state ackedThenReusedSender the
sequence number 1 is marked acknowledged, yet timeout_action 1 fires and
retransmits, because the guard at Protocol_SR.py line 116 checks only
membership in sndpkt and never the acknowledged status. -/
theorem timeout_fires_for_acknowledged :
    ReachableSender ackedThenReusedSender ∧
    lookupA ackedThenReusedSender.acknowledged 1 = some true ∧
    (lookupA ackedThenReusedSender.sndpkt 1).isSome = true ∧
    sentOf (timeout_action ackedThenReusedSender 1) =
      [{ seq_num := 1, payload := "z", packet_length := 10,
         corrupted := false }] := by
  refine ⟨?_, by decide, by decide, by decide⟩
  exact ReachableSender.send _ "z"
    (ReachableSender.ack _ ackPkt1
      (reachable_sendMany (List.replicate 15 "x") _
        (ReachableSender.ack _ ackPkt1
          (ReachableSender.send _ "a" ReachableSender.init))))

/-- C7 amended: timeout_action for seq fires exactly when seq is a key of
sndpkt, regardless of its acknowledged status; when it fires it
retransmits exactly the buffered packet, increments the retransmission
and total-sent counters by one, restarts the timer for seq (deleting the
old entry and creating a fresh untriggered one) and sends no other
packet; when seq is not buffered nothing happens. -/
theorem timeout_action_retransmits (s : SenderState) (seq : Nat)
    (hndt : (s.timers.map Prod.fst).Nodup) :
    (lookupA s.sndpkt seq = none → timeout_action s seq = some (s, [])) ∧
    (∀ pkt : Packet, lookupA s.sndpkt seq = some pkt →
      (lookupA s.timers seq).isSome = true →
      ∃ s' : SenderState, timeout_action s seq = some (s', [pkt]) ∧
        s'.num_retransmissions = s.num_retransmissions + 1 ∧
        s'.total_packets_sent = s.total_packets_sent + 1 ∧
        lookupA s'.timers seq = some false ∧
        s'.sndpkt = s.sndpkt ∧ s'.acknowledged = s.acknowledged ∧
        s'.base = s.base ∧ s'.nextseqnum = s.nextseqnum) := by
  constructor
  · intro hn
    unfold timeout_action
    rw [hn]
  · intro pkt hp ht
    cases hl : lookupA s.timers seq with
    | none =>
      rw [hl] at ht
      simp at ht
    | some b =>
      have he : timeout_action s seq =
          some (start_timer
            { s with num_retransmissions := s.num_retransmissions + 1,
                     total_packets_sent := s.total_packets_sent + 1,
                     timers := eraseA s.timers seq } seq, [pkt]) := by
        unfold timeout_action
        rw [hp, hl]
      refine ⟨_, he, by simp, by simp, ?_, by simp, by simp, by simp, by simp⟩
      have hnone : lookupA (eraseA s.timers seq) seq = none :=
        lookupA_eraseA_self s.timers seq hndt
      unfold start_timer
      simp only [hnone, if_pos]
      exact lookupA_insertA_self _ _ _

/-- Witness for the amended C7 at the state after one send: a timer and a
buffered packet exist for sequence number 1, and the timeout fires. -/
theorem timeout_action_retransmits_witness :
    (senderAfterOneSend.timers.map Prod.fst).Nodup ∧
    lookupA senderAfterOneSend.sndpkt 1 =
      some { seq_num := 1, payload := "a", packet_length := 10,
             corrupted := false } ∧
    (lookupA senderAfterOneSend.timers 1).isSome = true ∧
    (timeout_action senderAfterOneSend 1).isSome = true := by
  refine ⟨by decide, by decide, by decide, ?_⟩
  obtain ⟨s', he, _⟩ := (timeout_action_retransmits senderAfterOneSend 1
    (by decide)).2
    { seq_num := 1, payload := "a", packet_length := 10, corrupted := false }
    (by decide) (by decide)
  rw [he]
  rfl
